import Mathlib

/-!
Verification of the `github-workflow.js` CLI (GitHub Projects kanban helper).

The repository holds two successive revisions of the same script in
`src/bin/github-workflow.js`; the first block (using the `GITHUB_PROJECT_ID`
environment variable and a `.env` file) is the latest revision, the second
block (using the `.github-variables` config file with a `PROJECT_NUMBER=` key
and interactive selection) is the earlier one.  Both are embedded below where
the claims need them.

Remote state (the GitHub Projects board), subprocess calls and network
mutations are modelled explicitly: every command is a pure function from the
relevant inputs (the resolved project id, the project board data the GraphQL
query would return, and the ids the server would mint for created objects) to
a trace of externally visible effects together with an optional error message
(`none` = success, `some msg` = the JS function throws `Error(msg)` and the
top-level handler prints it and exits 1).  Console output is not modelled.

All machine strings are Lean `String`s; JS regular expressions are embedded as
explicit character-list parsers whose semantics (leftmost match, greedy /
non-greedy quantifiers, end anchor) are reproduced for the concrete fixed
patterns appearing in the source.  Only the ASCII part of JS `\s` / `\w` /
case conversion is modelled.
-/

/-- ASCII part of the JS whitespace class `\s` (and of `String.prototype.trim`):
space, tab, line feed, carriage return, vertical tab, form feed. -/
def isJsSpace (c : Char) : Bool :=
  c == ' ' || c == '\t' || c == '\n' || c == '\r' || c == '\x0b' || c == '\x0c'

/-- JS word-character class `\w`: ASCII letters, digits and underscore. -/
def isWordChar (c : Char) : Bool :=
  c.isAlphanum || c == '_'

/-- The character class `[\w-]` (owner part of the remote-URL pattern, and the
characters kept by the branch-name derivation `[^\w-]+` removal). -/
def wordOrHyphen (c : Char) : Bool :=
  isWordChar c || c == '-'

/-- The character class `[\w.-]` (repository part of the remote-URL pattern). -/
def repoChar (c : Char) : Bool :=
  isWordChar c || c == '.' || c == '-'

/-- Consume the literal `p` from the front of `l`; return the rest on success. -/
def eatLit : List Char → List Char → Option (List Char)
  | [], l => some l
  | _ :: _, [] => none
  | p :: ps, c :: cs => if c = p then eatLit ps cs else none

/-- Split `l` into its maximal front run of characters satisfying `f` and the
remainder (the semantics of a greedy character-class quantifier). -/
def takeClass (f : Char → Bool) : List Char → List Char × List Char
  | [] => ([], [])
  | c :: cs =>
    if f c then
      let r := takeClass f cs
      (c :: r.1, r.2)
    else ([], c :: cs)

/-- JS `String.prototype.trim` on a character list (ASCII whitespace). -/
def jsTrim (l : List Char) : List Char :=
  ((l.dropWhile isJsSpace).reverse.dropWhile isJsSpace).reverse

/-- `hasSub pat l` holds iff `pat` occurs as a contiguous run inside `l`. -/
def hasSub (pat : List Char) : List Char → Bool
  | [] => pat.isEmpty
  | c :: cs => (eatLit pat (c :: cs)).isSome || hasSub pat cs

/-- Split a character list at every `\n` or `\r` (the line boundaries the JS
multiline anchors `^`/`$` recognise, up to the rare Unicode separators). -/
def splitLines : List Char → List (List Char)
  | [] => [[]]
  | c :: cs =>
    let r := splitLines cs
    if c = '\n' || c = '\r' then [] :: r
    else
      match r with
      | [] => [[c]]
      | h :: t => (c :: h) :: t

/-- Decimal value of a digit run (JS `parseInt(s, 10)` on a digit-only match). -/
def digitsVal (l : List Char) : Nat :=
  l.foldl (fun acc c => acc * 10 + (c.toNat - 48)) 0

/-- The single `.git` the optional group `(?:\.git)?$` strips: with the
non-greedy repository capture `([\w.-]+?)`, the shortest successful capture
drops one trailing `".git"` when a non-empty capture remains, else keeps the
string whole. -/
def stripGitSuffix (l : List Char) : List Char :=
  if 5 ≤ l.length ∧ l.drop (l.length - 4) = ['.', 'g', 'i', 't'] then
    l.take (l.length - 4)
  else l

/-- Attempt of the pattern `github\.com[/:]([\w-]+)\/([\w.-]+?)(?:\.git)?$`
anchored at the front of `l` and required (by `$`) to consume `l` entirely:
the literal host, one `/` or `:`, a non-empty greedy `[\w-]+` owner, a literal
`/`, and a non-empty `[\w.-]+` tail whose single optional trailing `.git` is
stripped. -/
def matchHere (l : List Char) : Option (List Char × List Char) :=
  match eatLit "github.com".toList l with
  | none => none
  | some l1 =>
    match l1 with
    | [] => none
    | sep :: l2 =>
      if sep = '/' ∨ sep = ':' then
        let r := takeClass wordOrHyphen l2
        if r.1 = [] then none
        else
          match r.2 with
          | '/' :: l4 =>
            if l4 ≠ [] ∧ l4.all repoChar then some (r.1, stripGitSuffix l4)
            else none
          | _ => none
      else none

/-- Leftmost-match search of `matchHere` over every start position, the
semantics of JS `String.prototype.match` with a non-global regex. -/
def scanMatch : List Char → Option (List Char × List Char)
  | [] => none
  | c :: cs =>
    match matchHere (c :: cs) with
    | some r => some r
    | none => scanMatch cs

/-- `getRepoInfo` (both revisions): trim the `origin` remote URL and match it
against `/github\.com[/:]([\w-]+)\/([\w.-]+?)(?:\.git)?$/`, returning the
`(owner, repo)` captures; `none` models the thrown
`Could not parse repository owner and name from git remote URL` error. -/
def getRepoInfo (remoteUrl : String) : Option (String × String) :=
  match scanMatch (jsTrim remoteUrl.toList) with
  | some r => some (String.mk r.1, String.mk r.2)
  | none => none

/-- A `/` or `:` separator character, used by the spec-side URL shape. -/
def sepChar (c : Char) : Bool :=
  c == '/' || c == ':'

/-- Modelled from the spec's words (the claim's own shape, for comparison with
`getRepoInfo`): a remote URL "matching `host[:/]owner/repo(.git)?`" splits,
after stripping the optional `.git` suffix, into a non-empty host, one `:` or
`/`, a non-empty separator-free owner, a `/`, and a non-empty separator-free
repo; the extraction returns that owner and repo. -/
def specShapeParse (url : String) : Option (String × String) :=
  let core := stripGitSuffix url.toList
  let r1 := takeClass (fun c => !sepChar c) core.reverse
  match r1.2 with
  | '/' :: rest2 =>
    let r2 := takeClass (fun c => !sepChar c) rest2
    match r2.2 with
    | s :: hostRev =>
      if sepChar s && !r1.1.isEmpty && !r2.1.isEmpty && !hostRev.isEmpty then
        some (String.mk r2.1.reverse, String.mk r1.1.reverse)
      else none
    | [] => none
  | _ => none

/-- The `.replace(/\s+/g, "-")` step of the branch-name derivation: each
maximal run of whitespace becomes a single hyphen.  Written with two-element
lookahead so the recursion is structural: a whitespace character followed by
more whitespace is dropped (the run continues), the last whitespace of a run
emits the hyphen. -/
def collapseWsRuns : List Char → List Char
  | [] => []
  | [c] => if isJsSpace c then ['-'] else [c]
  | c :: d :: cs =>
    if isJsSpace c then
      if isJsSpace d then collapseWsRuns (d :: cs)
      else '-' :: collapseWsRuns (d :: cs)
    else c :: collapseWsRuns (d :: cs)

/-- Branch name derived by `nextTask` from the selected item's title:
`title.toLowerCase().replace(/\s+/g, "-").replace(/[^\w-]+/g, "")`. -/
def branchName (title : String) : String :=
  String.mk ((collapseWsRuns (title.toList.map Char.toLower)).filter wordOrHyphen)

/-- Modelled from the spec's words, second definition for comparison with
`branchName`: state-machine whitespace collapapse where `prevWs` records
whether the current position is inside a whitespace run (a run emits its
single hyphen at its first character). -/
def specCollapseGo : Bool → List Char → List Char
  | _, [] => []
  | prevWs, c :: cs =>
    if isJsSpace c then
      if prevWs then specCollapseGo true cs
      else '-' :: specCollapseGo true cs
    else c :: specCollapseGo false cs

/-- Modelled from the spec's words: "lower-casing the item's title, replacing
runs of whitespace with a single hyphen, and stripping every character that is
not a word character or hyphen". -/
def specBranchName (title : String) : String :=
  String.mk ((specCollapseGo false (title.toList.map Char.toLower)).filter wordOrHyphen)

/-- `args.join(" ")` from the CLI dispatcher. -/
def joinArgs : List String → String
  | [] => ""
  | [a] => a
  | a :: rest => a ++ " " ++ joinArgs rest

/-- `title.charAt(0).toUpperCase() + title.slice(1)` (ASCII case map). -/
def capitalizeFirst (t : String) : String :=
  match t.toList with
  | [] => ""
  | c :: cs => String.mk (Char.toUpper c :: cs)

/-- One option of the single-select "Status" field. -/
structure StatusOption where
  id : String
  name : String
deriving DecidableEq

/-- The project's "Status" field when it exists and is a single-select field
(`ProjectV2SingleSelectField` with its option list). -/
structure StatusField where
  id : String
  options : List StatusOption
deriving DecidableEq

/-- Content attached to a project item: an issue (`number` present) or a draft
issue (`number` absent). -/
structure ItemContent where
  title : String
  number : Option Nat
  body : Option String
deriving DecidableEq

/-- One row of the board, as the `items` query returns it:
`statusOptionId` is `fieldValueByName("Status")?.optionId` and `content` is
the attached issue or draft (`none` when the item has no content). -/
structure ProjectItem where
  id : String
  statusOptionId : Option String
  content : Option ItemContent
deriving DecidableEq

/-- The project node the GraphQL queries return.  `field` is `none` when the
"Status" field is missing or is not a single-select field; `items` is the full
board in ascending board-position order (the query itself fetches only
`first: 50`, which the embedding applies with `List.take 50`). -/
structure Project where
  id : String
  field : Option StatusField
  items : List ProjectItem
deriving DecidableEq

/-- Externally visible side effects of one command run, in order. -/
inductive Effect where
  | createIssue (owner repo title : String)
  | addDraftIssue (projectId title : String)
  | addItemById (projectId contentId : String)
  | setStatus (itemId fieldId optionId : String)
  | gitCheckoutMain
  | gitPull
  | gitCheckoutNewBranch (name : String)
  | listProjects
deriving DecidableEq

/-- `options.find(o => o.name === name)`. -/
def findOption (name : String) (options : List StatusOption) : Option StatusOption :=
  options.find? (fun o => o.name == name)

/-- The `nextTask` selection predicate:
`item.fieldValueByName?.optionId === todoOption.id && item.content`. -/
def isTodoItem (todoId : String) (item : ProjectItem) : Bool :=
  decide (item.statusOptionId = some todoId) && item.content.isSome

/-- Title of an item's content (the `nextTask` destructuring; only used on
items whose content the selection predicate has checked to be present). -/
def contentTitle (item : ProjectItem) : String :=
  match item.content with
  | some c => c.title
  | none => ""

/-- Whether an effect is a board status-update mutation. -/
def isSetStatus : Effect → Bool
  | .setStatus _ _ _ => true
  | _ => false

/-- Whether an effect adds an existing issue to the board. -/
def isAddItem : Effect → Bool
  | .addItemById _ _ => true
  | _ => false

/-- `newIdea(title)` of the latest revision.  Inputs: the resolved project id,
the project node the lookup query returns (`none` = not found), the title, and
the item id the draft-creation mutation would return.  The Status field and
its "Backlog" option are validated before anything is created. -/
def newIdea (projectId : String) (lookup : Option Project)
    (title draftItemId : String) : List Effect × Option String :=
  match lookup with
  | none => ([], some ("Could not find Project with ID " ++ projectId ++ "."))
  | some project =>
    match project.field with
    | none =>
      ([], some "Project is missing the \"Status\" field or it is not a single select field.")
    | some statusField =>
      match findOption "Backlog" statusField.options with
      | none =>
        ([], some "Project is missing the \"Backlog\" option in the \"Status\" field.")
      | some backlogOption =>
        ([.addDraftIssue project.id title,
          .setStatus draftItemId statusField.id backlogOption.id], none)

/-- `newTask(title)` of the latest revision.  The REST issue creation happens
first, before the project lookup and the Status/"Todo" validation; on any
validation failure the command throws with the issue already created.
`issueNodeId` and `itemId` are the ids the server would mint for the issue and
the added project item. -/
def newTask (owner repo projectId : String) (lookup : Option Project)
    (title issueNodeId itemId : String) : List Effect × Option String :=
  match lookup with
  | none =>
    ([.createIssue owner repo title],
     some ("Could not find Project with ID " ++ projectId ++ "."))
  | some project =>
    match project.field with
    | none =>
      ([.createIssue owner repo title],
       some "Project is missing the \"Status\" field or it is not a single select field.")
    | some statusField =>
      match findOption "Todo" statusField.options with
      | none =>
        ([.createIssue owner repo title],
         some "Project is missing the \"Todo\" option in the \"Status\" field.")
      | some todoOption =>
        ([.createIssue owner repo title,
          .addItemById project.id issueNodeId,
          .setStatus itemId statusField.id todoOption.id], none)

/-- The `new-task` path of the CLI dispatcher (latest revision): the arguments
are joined with spaces, a non-empty title has its first letter upper-cased,
and an empty title is rejected before `newTask` runs. -/
def mainNewTask (args : List String) (owner repo projectId : String)
    (lookup : Option Project) (issueNodeId itemId : String) :
    List Effect × Option String :=
  let title := joinArgs args
  if title = "" then ([], some "A title is required for a new task.")
  else newTask owner repo projectId lookup (capitalizeFirst title) issueNodeId itemId

/-- `nextTask()` of the latest revision.  The query fetches the first 50 items
in ascending board-position order (`List.take 50` of the full board); the
Status field and its "Todo"/"In Progress" options are validated; the first
fetched item in "Todo" with content is moved to "In Progress", and the local
git steps (checkout main, pull, create the derived branch) follow. -/
def nextTask (projectId : String) (lookup : Option Project) :
    List Effect × Option String :=
  match lookup with
  | none => ([], some ("Could not find Project with ID " ++ projectId ++ "."))
  | some project =>
    match project.field with
    | none => ([], some "Project is missing the \"Status\" field.")
    | some statusField =>
      match findOption "Todo" statusField.options,
            findOption "In Progress" statusField.options with
      | some todoOption, some inProgressOption =>
        match (project.items.take 50).find? (isTodoItem todoOption.id) with
        | none => ([], some "No tasks found in the \"Todo\" column.")
        | some todoItem =>
          ([.setStatus todoItem.id statusField.id inProgressOption.id,
            .gitCheckoutMain, .gitPull,
            .gitCheckoutNewBranch (branchName (contentTitle todoItem))], none)
      | _, _ =>
        ([], some "Project is missing \"Todo\" or \"In Progress\" options in the \"Status\" field.")

/-- Result of one attempted read of a local file. -/
inductive FileRead where
  | content (s : String)
  | enoent
  | failure (msg : String)
deriving DecidableEq

/-- Outcome of `getProjectId` (latest revision): a resolved id, or the
print-available-projects-and-`process.exit(1)` path. -/
inductive GetIdOutcome where
  | resolved (id : String)
  | exitFailure
deriving DecidableEq

/-- Outcome of `getProjectNumber` (earlier revision), modelled up to the
remote-query step: a number parsed from the config file, the
"not yet configured" continuation that queries the remote project list (the
interactive selection that follows is not modelled), or a fatal re-thrown
file-read error. -/
inductive ResolveOutcome where
  | fromConfig (n : Nat)
  | unconfigured
  | fatal (e : String)
deriving DecidableEq

/-- First match of `/^GITHUB_PROJECT_ID=(.*)$/m` over the `.env` content, with
the JS `match[1].trim()` applied: the first line starting with
`GITHUB_PROJECT_ID=` yields the trimmed remainder of that line. -/
def parseEnvContent (content : String) : Option String :=
  (splitLines content.toList).findSome? (fun line =>
    match eatLit "GITHUB_PROJECT_ID=".toList line with
    | some rest => some (String.mk (jsTrim rest))
    | none => none)

/-- First match of `/PROJECT_NUMBER=(\d+)/` over the config-file content: the
leftmost occurrence of the literal followed by at least one digit yields the
decimal value of the maximal digit run. -/
def findProjectNumber : List Char → Option Nat
  | [] => none
  | c :: cs =>
    match eatLit "PROJECT_NUMBER=".toList (c :: cs) with
    | some rest =>
      let ds := (takeClass Char.isDigit rest).1
      if ds = [] then findProjectNumber cs else some (digitsVal ds)
    | none => findProjectNumber cs

/-- `getProjectId()` of the latest revision.  `envVar` is
`process.env.GITHUB_PROJECT_ID` (`none` = unset; the empty string is falsy in
JS and is skipped like an unset variable); `envFile` is the attempted read of
`<gitRoot>/.env`, whose errors this revision's `catch` ignores entirely.  When
neither source yields a non-empty id, the remote open-project list is queried
and the process exits 1. -/
def getProjectId (envVar : Option String) (envFile : FileRead) :
    List Effect × GetIdOutcome :=
  let fromEnv : Option String :=
    match envVar with
    | some s => if s = "" then none else some s
    | none => none
  let fromFile : Option String :=
    match envFile with
    | .content c =>
      match parseEnvContent c with
      | some v => if v = "" then none else some v
      | none => none
    | _ => none
  match fromEnv with
  | some s => ([], .resolved s)
  | none =>
    match fromFile with
    | some v => ([], .resolved v)
    | none => ([.listProjects], .exitFailure)

/-- `getProjectNumber()` of the earlier revision, up to the remote-query step:
the `.github-variables` config file is read; a `PROJECT_NUMBER=<digits>` match
resolves immediately; a missing file (`ENOENT`) is treated as not yet
configured and falls through to the remote project-list query; any other read
error is re-thrown (`if (error.code !== 'ENOENT') throw error`). -/
def getProjectNumber (configFile : FileRead) : List Effect × ResolveOutcome :=
  match configFile with
  | .content c =>
    match findProjectNumber c.toList with
    | some n => ([], .fromConfig n)
    | none => ([.listProjects], .unconfigured)
  | .enoent => ([.listProjects], .unconfigured)
  | .failure e => ([], .fatal e)

/-- A project whose Status field is missing (or not single-select). -/
def projNoStatus : Project :=
  { id := "P2", field := none, items := [] }

/-- A Status field without a "Todo" option. -/
def sfNoTodo : StatusField :=
  { id := "F8", options := [{ id := "b1", name := "Backlog" }] }

/-- A project whose Status field lacks the "Todo" option. -/
def projNoTodo : Project :=
  { id := "P8", field := some sfNoTodo, items := [] }

/-- A Status field with a "Todo" option. -/
def sfTodo : StatusField :=
  { id := "F3", options := [{ id := "opt-t3", name := "Todo" }] }

/-- A well-configured project for the `new-task` success path. -/
def projTodo : Project :=
  { id := "P3", field := some sfTodo, items := [] }

/-- Status field with "Todo" and "In Progress" options for `nextTask` runs. -/
def sfBoard : StatusField :=
  { id := "F1",
    options := [{ id := "opt-t", name := "Todo" },
                { id := "opt-p", name := "In Progress" }] }

/-- A board item sitting in "Todo" with an attached issue. -/
def itemTodo : ProjectItem :=
  { id := "I1", statusOptionId := some "opt-t",
    content := some { title := "Fix bug", number := some 3, body := none } }

/-- A project with one "Todo" item, for the `nextTask` success path. -/
def projBoard : Project :=
  { id := "P1", field := some sfBoard, items := [itemTodo] }

/-- Status field with "Todo", "In Progress" and "Done" options. -/
def sfDone : StatusField :=
  { id := "F6",
    options := [{ id := "t6", name := "Todo" },
                { id := "p6", name := "In Progress" },
                { id := "d6", name := "Done" }] }

/-- A project whose only item sits in "Done": nothing is in "Todo". -/
def projDoneOnly : Project :=
  { id := "P6", field := some sfDone,
    items := [{ id := "I6", statusOptionId := some "d6",
                content := some { title := "Shipped", number := some 1, body := none } }] }

/-- A project whose first board item is titled `"!!!"` and sits in "Todo". -/
def projBangs : Project :=
  { id := "P9",
    field := some { id := "F9",
                    options := [{ id := "o-todo", name := "Todo" },
                                { id := "o-prog", name := "In Progress" }] },
    items := [{ id := "I9", statusOptionId := some "o-todo",
                content := some { title := "!!!", number := some 7, body := none } }] }

/-! ## Helper lemmas -/

theorem collapseWsRuns_eq_specCollapseGo (l : List Char) :
    collapseWsRuns l = specCollapseGo false l := by
  induction l with
  | nil => rfl
  | cons c cs ih =>
    cases cs with
    | nil =>
      by_cases hc : isJsSpace c <;> simp [collapseWsRuns, specCollapseGo, hc]
    | cons d ds =>
      by_cases hc : isJsSpace c
      · by_cases hd : isJsSpace d <;>
          simp [collapseWsRuns, specCollapseGo, hc, hd, ih]
      · simp [collapseWsRuns, specCollapseGo, hc, ih]

/-! ## Claim theorems -/

/-- C4: for every item title, the derived branch name equals the title
lower-cased, with each maximal whitespace run replaced by a single hyphen and
every remaining character that is neither a word character nor a hyphen
removed (the spec-side pipeline `specBranchName`); in particular
`"Fix the Login Bug!!"` derives `"fix-the-login-bug"`. -/
theorem branchName_c4 :
    (∀ title, branchName title = specBranchName title)
    ∧ branchName "Fix the Login Bug!!" = "fix-the-login-bug" := by
  constructor
  · intro t
    unfold branchName specBranchName
    rw [collapseWsRuns_eq_specCollapseGo]
  · decide

/-- C9: the non-empty title `"!!!"` derives the empty branch name, and on a
board whose first "Todo" item carries that title `next-task` issues its
status mutation first and then attempts to create a branch with an empty
name (the final git effect). -/
theorem nextTask_c9 :
    ("!!!" : String) ≠ ""
    ∧ branchName "!!!" = ""
    ∧ nextTask "P9" (some projBangs)
      = ([.setStatus "I9" "F9" "o-prog", .gitCheckoutMain, .gitPull,
          .gitCheckoutNewBranch ""], none) :=
  ⟨by decide, by decide, by decide⟩

/-- C2 counterexample: in the latest revision, running `new-idea` against a
project without a (single-select) Status field produces no effect at all — in
particular no draft item is created — and fails with an error, contradicting
the claim that the draft is still created and the absence silently
tolerated. -/
theorem newIdea_c2_cex :
    (newIdea "P2" (some projNoStatus) "My idea" "ITEM2").1 = []
    ∧ (newIdea "P2" (some projNoStatus) "My idea" "ITEM2").2
      = some "Project is missing the \"Status\" field or it is not a single select field." :=
  ⟨rfl, rfl⟩

/-- C2 amended: in the latest revision, when `new-idea` runs against a
project whose Status field (or its "Backlog" option) is absent, the command
fails with an error before creating anything: no draft item is created and
the absence is a hard failure, not a silently skipped step. -/
theorem newIdea_c2_amended (pid title did : String) (p : Project)
    (h : p.field = none
      ∨ ∃ sf, p.field = some sf ∧ findOption "Backlog" sf.options = none) :
    ∃ e, newIdea pid (some p) title did = ([], some e) := by
  rcases h with h | ⟨sf, hsf, hb⟩
  · exact ⟨"Project is missing the \"Status\" field or it is not a single select field.",
      by simp [newIdea, h]⟩
  · exact ⟨"Project is missing the \"Backlog\" option in the \"Status\" field.",
      by simp [newIdea, hsf, hb]⟩

theorem newIdea_c2_amended_witness :
    ∃ e, newIdea "P2" (some projNoStatus) "New landing page" "ITEM2b" = ([], some e) :=
  newIdea_c2_amended "P2" "New landing page" "ITEM2b" projNoStatus (Or.inl rfl)

/-- C7: when the earlier revision's resolver reads the `.github-variables`
config file, a file-not-found condition is treated as "not yet configured"
and resolution continues to the remote project-list query, while every other
file-read error propagates as fatal. -/
theorem getProjectNumber_c7 :
    getProjectNumber .enoent = ([.listProjects], .unconfigured)
    ∧ ∀ e, getProjectNumber (.failure e) = ([], .fatal e) :=
  ⟨rfl, fun _ => rfl⟩

/-- C5: whenever a project identifier is available from the explicit
`GITHUB_PROJECT_ID` override (non-empty environment variable, or a well-formed
non-empty `.env` entry) or from a well-formed `PROJECT_NUMBER` entry of the
persisted config file, the resolver returns that identifier with no remote
list-projects query. -/
theorem projectResolver_c5 :
    (∀ s envFile, s ≠ "" → getProjectId (some s) envFile = ([], .resolved s))
    ∧ (∀ envVar c v, (envVar = none ∨ envVar = some "") →
        parseEnvContent c = some v → v ≠ "" →
        getProjectId envVar (.content c) = ([], .resolved v))
    ∧ (∀ c n, findProjectNumber c.toList = some n →
        getProjectNumber (.content c) = ([], .fromConfig n)) := by
  refine ⟨?_, ?_, ?_⟩
  · intro s envFile hs
    simp [getProjectId, hs]
  · intro envVar c v hv hpc hne
    rcases hv with h | h <;> subst h <;> simp [getProjectId, hpc, hne]
  · intro c n h
    have h' : findProjectNumber c.data = some n := h
    simp [getProjectNumber, h']

theorem projectResolver_c5_witness :
    getProjectId (some "PVT_X") .enoent = ([], .resolved "PVT_X")
    ∧ getProjectId none (.content "GITHUB_PROJECT_ID=PVT_Y\n") = ([], .resolved "PVT_Y")
    ∧ getProjectNumber (.content "PROJECT_NUMBER=12\n") = ([], .fromConfig 12) :=
  ⟨projectResolver_c5.1 "PVT_X" .enoent (by decide),
   projectResolver_c5.2.1 none "GITHUB_PROJECT_ID=PVT_Y\n" "PVT_Y" (Or.inl rfl)
     (by decide) (by decide),
   projectResolver_c5.2.2 "PROJECT_NUMBER=12\n" 12 (by decide)⟩

/-- C6: on a board whose Status field has the "Todo" and "In Progress"
options but where no item at all sits in "Todo" with content attached,
`next-task` fails with the explicit no-tasks error and performs no effect:
no board mutation and no git operation. -/
theorem nextTask_c6 (pid : String) (p : Project) (sf : StatusField)
    (t ip : StatusOption)
    (hf : p.field = some sf)
    (ht : findOption "Todo" sf.options = some t)
    (hip : findOption "In Progress" sf.options = some ip)
    (hempty : ∀ item ∈ p.items, isTodoItem t.id item = false) :
    nextTask pid (some p) = ([], some "No tasks found in the \"Todo\" column.") := by
  have hfind : (p.items.take 50).find? (isTodoItem t.id) = none := by
    rw [List.find?_eq_none]
    intro x hx
    have hx' := hempty x (List.take_subset 50 p.items hx)
    simp [hx']
  simp [nextTask, hf, ht, hip, hfind]

theorem nextTask_c6_witness :
    nextTask "P6" (some projDoneOnly)
      = ([], some "No tasks found in the \"Todo\" column.") :=
  nextTask_c6 "P6" projDoneOnly sfDone ⟨"t6", "Todo"⟩ ⟨"p6", "In Progress"⟩
    rfl (by decide) (by decide) (by decide)

/-- C1: on a project whose Status field has both "Todo" and "In Progress"
options, `next-task` considers only the first 50 items in ascending
board-position order, selects the first of them whose status equals the Todo
option and whose content is present, and issues exactly one status-update
mutation, setting that item's status to the In Progress option; if either
option is absent it fails. -/
theorem nextTask_c1 (pid : String) (p : Project) (sf : StatusField)
    (hf : p.field = some sf) :
    (∀ t ip item,
       findOption "Todo" sf.options = some t →
       findOption "In Progress" sf.options = some ip →
       (p.items.take 50).find? (isTodoItem t.id) = some item →
       nextTask pid (some p)
         = ([.setStatus item.id sf.id ip.id, .gitCheckoutMain, .gitPull,
             .gitCheckoutNewBranch (branchName (contentTitle item))], none)
       ∧ (nextTask pid (some p)).1.filter isSetStatus
         = [.setStatus item.id sf.id ip.id])
    ∧ ((findOption "Todo" sf.options = none
        ∨ findOption "In Progress" sf.options = none) →
       nextTask pid (some p)
         = ([], some "Project is missing \"Todo\" or \"In Progress\" options in the \"Status\" field."))
    ∧ nextTask pid (some p) = nextTask pid (some { p with items := p.items.take 50 }) := by
  refine ⟨?_, ?_, ?_⟩
  · intro t ip item ht hip hitem
    have h : nextTask pid (some p)
        = ([.setStatus item.id sf.id ip.id, .gitCheckoutMain, .gitPull,
            .gitCheckoutNewBranch (branchName (contentTitle item))], none) := by
      simp [nextTask, hf, ht, hip, hitem]
    exact ⟨h, by rw [h]; rfl⟩
  · intro hmiss
    rcases hmiss with h | h
    · simp [nextTask, hf, h]
    · cases ht : findOption "Todo" sf.options <;> simp [nextTask, hf, ht, h]
  · cases ht : findOption "Todo" sf.options <;>
      cases hip : findOption "In Progress" sf.options <;>
      simp [nextTask, hf, ht, hip, List.take_take]

theorem nextTask_c1_witness :
    nextTask "P1" (some projBoard)
      = ([.setStatus "I1" "F1" "opt-p", .gitCheckoutMain, .gitPull,
          .gitCheckoutNewBranch "fix-bug"], none)
    ∧ (nextTask "P1" (some projBoard)).1.filter isSetStatus
      = [.setStatus "I1" "F1" "opt-p"] := by
  have h := (nextTask_c1 "P1" projBoard sfBoard rfl).1
    ⟨"opt-t", "Todo"⟩ ⟨"opt-p", "In Progress"⟩ itemTodo (by decide) (by decide) (by decide)
  refine ⟨?_, ?_⟩
  · rw [h.1]; decide
  · rw [h.2]; decide

/-- C8 counterexample: against a project whose Status field lacks the "Todo"
option, `new-task "add caching"` creates the (capitalized) remote issue but
then fails: no project item referencing the issue is ever added, contrary to
the claim's unconditional "adds exactly one project item". -/
theorem newTask_c8_cex :
    mainNewTask ["add", "caching"] "acme" "widgets" "P8" (some projNoTodo) "NODE8" "ITEM8"
      = ([.createIssue "acme" "widgets" "Add caching"],
         some "Project is missing the \"Todo\" option in the \"Status\" field.")
    ∧ (mainNewTask ["add", "caching"] "acme" "widgets" "P8" (some projNoTodo) "NODE8" "ITEM8").1.filter isAddItem
      = [] :=
  ⟨by decide, by decide⟩

/-- C8 amended: the CLI arguments are joined with spaces and the first letter
is upper-cased before use; when the resolved project exists and its Status
field has a "Todo" option, `new-task` creates exactly one remote issue with
that title, adds exactly one project item referencing the issue, and issues
exactly one status-update mutation, in that order (when the validation fails
instead, the issue is created but no item is added — see the
counterexample). -/
theorem newTask_c8_amended (args : List String) (owner repo pid nid itemid : String)
    (p : Project) (sf : StatusField) (todoOpt : StatusOption)
    (hargs : joinArgs args ≠ "")
    (hfield : p.field = some sf)
    (ht : findOption "Todo" sf.options = some todoOpt) :
    mainNewTask args owner repo pid (some p) nid itemid
      = ([.createIssue owner repo (capitalizeFirst (joinArgs args)),
          .addItemById p.id nid,
          .setStatus itemid sf.id todoOpt.id], none) := by
  simp [mainNewTask, newTask, hargs, hfield, ht]

theorem newTask_c8_amended_witness :
    mainNewTask ["add", "caching"] "acme" "widgets" "P3" (some projTodo) "NODE3" "ITEM3"
      = ([.createIssue "acme" "widgets" "Add caching",
          .addItemById "P3" "NODE3",
          .setStatus "ITEM3" "F3" "opt-t3"], none) := by
  have h := newTask_c8_amended ["add", "caching"] "acme" "widgets" "P3" "NODE3" "ITEM3"
    projTodo sfTodo ⟨"opt-t3", "Todo"⟩ (by decide) rfl (by decide)
  rw [h]; decide

/-- C10: `new-task` creates the remote issue before validating the resolved
project and its Status/"Todo" configuration, so whenever that validation
fails the command errors with the issue already created (its creation is the
entire effect trace — in particular no item-addition and no rollback), while
`new-idea` validates before creating anything and fails with an empty effect
trace. -/
theorem newTask_c10 (owner repo pid title nid itemid pid2 title2 did : String)
    (lu lu2 : Option Project)
    (hT : lu = none
      ∨ ∃ p, lu = some p ∧ (p.field = none
          ∨ ∃ sf, p.field = some sf ∧ findOption "Todo" sf.options = none))
    (hI : lu2 = none
      ∨ ∃ p, lu2 = some p ∧ (p.field = none
          ∨ ∃ sf, p.field = some sf ∧ findOption "Backlog" sf.options = none)) :
    (∃ e, newTask owner repo pid lu title nid itemid
        = ([.createIssue owner repo title], some e))
    ∧ (∃ e, newIdea pid2 lu2 title2 did = ([], some e)) := by
  constructor
  · rcases hT with h | ⟨p, hp, h⟩
    · subst h
      exact ⟨"Could not find Project with ID " ++ pid ++ ".", rfl⟩
    · subst hp
      rcases h with h | ⟨sf, hsf, hto⟩
      · exact ⟨"Project is missing the \"Status\" field or it is not a single select field.",
          by simp [newTask, h]⟩
      · exact ⟨"Project is missing the \"Todo\" option in the \"Status\" field.",
          by simp [newTask, hsf, hto]⟩
  · rcases hI with h | ⟨p, hp, h⟩
    · subst h
      exact ⟨"Could not find Project with ID " ++ pid2 ++ ".", rfl⟩
    · subst hp
      rcases h with h | ⟨sf, hsf, hb⟩
      · exact ⟨"Project is missing the \"Status\" field or it is not a single select field.",
          by simp [newIdea, h]⟩
      · exact ⟨"Project is missing the \"Backlog\" option in the \"Status\" field.",
          by simp [newIdea, hsf, hb]⟩

theorem newTask_c10_witness :
    (∃ e, newTask "acme" "widgets" "P8" (some projNoTodo) "Add caching" "NODE8" "ITEM8"
        = ([.createIssue "acme" "widgets" "Add caching"], some e))
    ∧ (∃ e, newIdea "P2" (some projNoStatus) "My idea" "ITEM2c" = ([], some e)) :=
  newTask_c10 "acme" "widgets" "P8" "Add caching" "NODE8" "ITEM8" "P2" "My idea" "ITEM2c"
    (some projNoTodo) (some projNoStatus)
    (Or.inr ⟨projNoTodo, rfl, Or.inr ⟨sfNoTodo, rfl, by decide⟩⟩)
    (Or.inr ⟨projNoStatus, rfl, Or.inl rfl⟩)

theorem eatLit_append (p l : List Char) : eatLit p (p ++ l) = some l := by
  induction p with
  | nil => rfl
  | cons c cs ih => simp [eatLit, ih]

theorem takeClass_append (f : Char → Bool) (a rest : List Char)
    (ha : ∀ c ∈ a, f c = true)
    (hrest : ∀ d ds, rest = d :: ds → f d = false) :
    takeClass f (a ++ rest) = (a, rest) := by
  induction a with
  | nil =>
    cases rest with
    | nil => rfl
    | cons d ds => simp [takeClass, hrest d ds rfl]
  | cons c cs ih =>
    have hc : f c = true := ha c (List.mem_cons_self c cs)
    have ih' := ih (fun x hx => ha x (List.mem_cons_of_mem c hx))
    simp [takeClass, hc, ih']

theorem dropWhile_eq_self_head (p : Char → Bool) (l : List Char)
    (h : ∀ c, l.head? = some c → p c = false) : l.dropWhile p = l := by
  cases l with
  | nil => rfl
  | cons c cs => simp [List.dropWhile_cons, h c rfl]

theorem jsTrim_eq_self (l : List Char)
    (h1 : l.dropWhile isJsSpace = l)
    (h2 : l.reverse.dropWhile isJsSpace = l.reverse) : jsTrim l = l := by
  unfold jsTrim
  rw [h1, h2, List.reverse_reverse]

theorem space_not_repoChar (c : Char) (hs : isJsSpace c = true) : repoChar c = false := by
  unfold isJsSpace at hs
  simp only [Bool.or_eq_true, beq_iff_eq] at hs
  rcases hs with ((((h1 | h1) | h1) | h1) | h1) | h1 <;> subst h1 <;> decide

theorem repoChar_not_space (c : Char) (h : repoChar c = true) : isJsSpace c = false := by
  cases hx : isJsSpace c
  · rfl
  · rw [space_not_repoChar c hx] at h
    exact Bool.noConfusion h

theorem matchHere_exact (owner repo : List Char) (sep : Char)
    (hsep : sep = '/' ∨ sep = ':')
    (ho : owner ≠ []) (hoc : ∀ c ∈ owner, wordOrHyphen c = true)
    (hr : repo ≠ []) (hrc : ∀ c ∈ repo, repoChar c = true) :
    matchHere ("github.com".toList ++ (sep :: (owner ++ '/' :: repo)))
      = some (owner, stripGitSuffix repo) := by
  have h2 : takeClass wordOrHyphen (owner ++ '/' :: repo) = (owner, '/' :: repo) :=
    takeClass_append wordOrHyphen owner ('/' :: repo) hoc
      (fun d ds hd => by
        injection hd with hd1 _
        subst hd1
        decide)
  rcases hsep with h | h <;> subst h <;> simp [matchHere, eatLit, h2, ho, hr, hrc] <;> exact hrc

theorem scanMatch_of_matchHere (l : List Char) (r : List Char × List Char)
    (h : matchHere l = some r) : scanMatch l = some r := by
  cases l with
  | nil =>
    have hnil : matchHere [] = none := rfl
    rw [hnil] at h
    exact Option.noConfusion h
  | cons c cs =>
    simp [scanMatch, h]

theorem matchHere_isSome_eat (l : List Char) (r : List Char × List Char)
    (h : matchHere l = some r) : (eatLit "github.com".toList l).isSome = true := by
  unfold matchHere at h
  cases he : eatLit "github.com".toList l with
  | none => rw [he] at h; simp at h
  | some l1 => rfl

theorem hasSub_of_scanMatch (l : List Char) (r : List Char × List Char)
    (h : scanMatch l = some r) : hasSub "github.com".toList l = true := by
  induction l with
  | nil => simp [scanMatch] at h
  | cons c cs ih =>
    simp only [scanMatch] at h
    cases hm : matchHere (c :: cs) with
    | some r' =>
      have he := matchHere_isSome_eat (c :: cs) r' hm
      simp only [hasSub, Bool.or_eq_true]
      exact Or.inl he
    | none =>
      rw [hm] at h
      simp at h
      simp only [hasSub, Bool.or_eq_true]
      exact Or.inr (ih h)

/-- C3 amended: the parser's fixed pattern requires the host `github.com`,
not an arbitrary host.  For every remote URL of the form `github.com`, then
`:` or `/`, then a non-empty owner of word characters and hyphens, then `/`,
then a non-empty repository name of word characters, dots and hyphens, the
parser extracts exactly that owner and the repository name with one trailing
`.git` stripped; every string in which `github.com` does not even occur (in
particular any other host, such as `gitlab.com:alice/project`) fails. -/
theorem getRepoInfo_c3_amended :
    (∀ (owner repo : List Char) (sep : Char),
       (sep = '/' ∨ sep = ':') → owner ≠ [] →
       (∀ c ∈ owner, wordOrHyphen c = true) → repo ≠ [] →
       (∀ c ∈ repo, repoChar c = true) →
       getRepoInfo (String.mk ("github.com".toList ++ (sep :: (owner ++ '/' :: repo))))
         = some (String.mk owner, String.mk (stripGitSuffix repo)))
    ∧ (∀ url : String, hasSub "github.com".toList (jsTrim url.toList) = false →
       getRepoInfo url = none) := by
  constructor
  · intro owner repo sep hsep ho hoc hr hrc
    have hmh := matchHere_exact owner repo sep hsep ho hoc hr hrc
    have hc' : ("github.com".toList ++ (sep :: (owner ++ '/' :: repo))).head? = some 'g' := rfl
    have h1 : ("github.com".toList ++ (sep :: (owner ++ '/' :: repo))).dropWhile isJsSpace
        = "github.com".toList ++ (sep :: (owner ++ '/' :: repo)) :=
      dropWhile_eq_self_head _ _ (fun c hc => by
        have hgc := hc'.symm.trans hc
        injection hgc with hgc
        subst hgc
        decide)
    obtain ⟨z, zs, hzz⟩ : ∃ z zs, repo.reverse = z :: zs := by
      cases hrev : repo.reverse with
      | nil => exact absurd (List.reverse_eq_nil_iff.mp hrev) hr
      | cons z zs => exact ⟨z, zs, rfl⟩
    have hzmem : z ∈ repo := by
      have hz : z ∈ repo.reverse := by rw [hzz]; exact List.mem_cons_self z zs
      exact List.mem_reverse.mp hz
    have hzns : isJsSpace z = false := repoChar_not_space z (hrc z hzmem)
    have hrevL : ("github.com".toList ++ (sep :: (owner ++ '/' :: repo))).reverse.head? = some z := by
      simp [List.reverse_append, hzz]
    have h2 : ("github.com".toList ++ (sep :: (owner ++ '/' :: repo))).reverse.dropWhile isJsSpace
        = ("github.com".toList ++ (sep :: (owner ++ '/' :: repo))).reverse :=
      dropWhile_eq_self_head _ _ (fun c hc => by
        have hgc := hrevL.symm.trans hc
        injection hgc with hgc
        subst hgc
        exact hzns)
    have htrim : jsTrim ("github.com".toList ++ (sep :: (owner ++ '/' :: repo)))
        = "github.com".toList ++ (sep :: (owner ++ '/' :: repo)) := jsTrim_eq_self _ h1 h2
    have hscan : scanMatch ("github.com".toList ++ (sep :: (owner ++ '/' :: repo)))
        = some (owner, stripGitSuffix repo) := scanMatch_of_matchHere _ _ hmh
    unfold getRepoInfo
    rw [show (String.mk ("github.com".toList ++ (sep :: (owner ++ '/' :: repo)))).toList
          = "github.com".toList ++ (sep :: (owner ++ '/' :: repo)) from rfl,
        htrim, hscan]
  · intro url h
    unfold getRepoInfo
    cases hs : scanMatch (jsTrim url.toList) with
    | none => rfl
    | some r =>
      have ht := hasSub_of_scanMatch _ r hs
      rw [h] at ht
      exact Bool.noConfusion ht

/-- C3 counterexample: `gitlab.com:alice/project` matches the claimed shape
`host[:/]owner/repo(.git)?` (as `specShapeParse` extracts owner `alice` and
repo `project` from it), yet the parser fails on it, because its single fixed
pattern requires the host `github.com`. -/
theorem getRepoInfo_c3_cex :
    specShapeParse "gitlab.com:alice/project" = some ("alice", "project")
    ∧ getRepoInfo "gitlab.com:alice/project" = none :=
  ⟨by decide, by decide⟩

theorem getRepoInfo_c3_amended_witness :
    getRepoInfo "github.com:alice/widgets.git" = some ("alice", "widgets")
    ∧ getRepoInfo "gitlab.com:alice/project" = none := by
  constructor
  · have h := getRepoInfo_c3_amended.1 "alice".toList "widgets.git".toList ':'
      (Or.inr rfl) (by decide) (by decide) (by decide) (by decide)
    have e1 : String.mk ("github.com".toList ++ (':' :: ("alice".toList ++ '/' :: "widgets.git".toList)))
        = "github.com:alice/widgets.git" := by decide
    have e2 : stripGitSuffix "widgets.git".toList = "widgets".toList := by decide
    rw [e1, e2] at h
    have e3 : String.mk "alice".toList = "alice" := rfl
    have e4 : String.mk "widgets".toList = "widgets" := rfl
    rw [e3, e4] at h
    exact h
  · exact getRepoInfo_c3_amended.2 "gitlab.com:alice/project" (by decide)
